import Mathlib

/-!
Verification of the aero-slider carousel engine.

The development shallowly embeds the slider's state/position engine:

* JavaScript numeric primitives (`Math.round`, `Math.trunc`, the `%`
  remainder with JavaScript sign behaviour) over `ℚ` and `ℤ`;
* the pure index/scroll translator functions of `createSlider`
  (`getMaxIndex`, `isFractionalView`, `isLoopEnabled`, `normalizeIndex`,
  `getScrollPosForIndex`, `getIndexFromScrollPos`, `getEffectivePerMove`);
* the loop controller (`getLoopRealStart`, `getLoopIndexFromScroll`) and
  the shortest-path delta chosen by `goTo` in loop mode;
* the drag release resolution of `onPointerUp`;
* the thumbnail bind reconfiguration of `syncThumbnails`;
* a state machine for the public operations (`next`, `prev`, `goTo`,
  `update`, `refresh`, `add`, `remove`, `destroy`, scroll-driven index
  sync) acting on the mutable slider state.

Layout quantities that the browser reports (viewport size, track scroll
size, measured slide size, scroll position) are carried as fields of the
state and treated as external inputs.
-/

namespace AeroSlider

/-- JavaScript `Math.round`: round half toward positive infinity. -/
def jround (q : ℚ) : ℤ := ⌊q + 1/2⌋

/-- JavaScript `Math.trunc`: round toward zero. -/
def jtrunc (q : ℚ) : ℤ := if 0 ≤ q then ⌊q⌋ else ⌈q⌉

/-- JavaScript `%` on integers: remainder with the sign of the dividend
(truncated division remainder). -/
def jsRem (a n : ℤ) : ℤ := Int.tmod a n

/-- The JavaScript idiom `((a % n) + n) % n`, used by the slider to wrap
an index into `[0, slideCount)`. -/
def jsWrap (a n : ℤ) : ℤ := jsRem (jsRem a n + n) n

/-- Slider state and environment.  Merges `SliderState`, the relevant
`SliderConfigFull` fields and the browser-reported layout quantities.
`slideWidthPx` is the cached slide size (`0` = unmeasured);
`firstSlideRect` is the size the DOM would report for the first slide
(`getBoundingClientRect`), so a fresh measurement yields
`firstSlideRect + gap`. -/
structure MState where
  currentIndex : ℤ
  isDestroyed : Bool
  loopModeActive : Bool
  isDragging : Bool
  isProgrammaticScroll : Bool
  slideWidthPx : ℚ
  slideCount : ℕ
  cloneSets : ℕ
  cfgLoop : Bool
  cfgPerMove : Option ℤ
  slidesPerView : ℚ
  gap : ℚ
  viewportSize : ℚ
  trackScrollSize : ℚ
  scrollPos : ℚ
  firstSlideRect : ℚ
  deriving DecidableEq, Repr

/-- `isFractionalView`: `config.slidesPerView % 1 !== 0`. -/
def isFractionalView (s : MState) : Bool := s.slidesPerView.den != 1

/-- `getMaxIndex`: `slideCount - 1` for fractional views,
`Math.max(0, Math.floor(slideCount - slidesPerView))` for integer views. -/
def getMaxIndex (s : MState) : ℤ :=
  if isFractionalView s then max 0 ((s.slideCount : ℤ) - 1)
  else max 0 ⌊(s.slideCount : ℚ) - s.slidesPerView⌋

/-- `isLoopEnabled`: `config.loop && getMaxIndex() > 0`. -/
def isLoopEnabled (s : MState) : Bool := s.cfgLoop && decide (0 < getMaxIndex s)

/-- `getEffectivePerMove`: `config.perMove > 0 ? config.perMove : 1`.
An absent `perMove` (`undefined > 0` is `false` in JavaScript) also
yields `1`. -/
def getEffectivePerMove (s : MState) : ℤ :=
  match s.cfgPerMove with
  | some p => if 0 < p then p else 1
  | none => 1

/-- `normalizeIndex` on an arbitrary JavaScript number:
clamp into `[0, maxIndex]` when loop is not enabled, otherwise
`((Math.trunc(index) % slideCount) + slideCount) % slideCount`. -/
def normalizeIndex (s : MState) (index : ℚ) : ℚ :=
  if !isLoopEnabled s then max 0 (min index (getMaxIndex s))
  else ((jsWrap (jtrunc index) s.slideCount : ℤ) : ℚ)

/-- `normalizeIndex` restricted to integer inputs (every internal caller
passes an integer). -/
def normInt (s : MState) (index : ℤ) : ℤ :=
  if !isLoopEnabled s then max 0 (min index (getMaxIndex s))
  else jsWrap index s.slideCount

/-- `getScrollPosForIndex` of `createSlider`.  `slideWidthPx` plays the
role of the value returned by `getSlideSize()`. -/
def getScrollPosForIndex (s : MState) (index : ℚ) : ℚ :=
  let w := s.slideWidthPx
  if w = 0 then 0
  else if !isFractionalView s then index * w
  else
    let vpSize := s.viewportSize
    let slideVisual := w - s.gap
    if s.loopModeActive then index * w + slideVisual / 2 - vpSize / 2
    else
      let maxIdx := getMaxIndex s
      if index ≤ 0 then 0
      else if (maxIdx : ℚ) ≤ index then s.trackScrollSize - s.viewportSize
      else index * w + slideVisual / 2 - vpSize / 2

/-- `getIndexFromScrollPos` of `createSlider`. -/
def getIndexFromScrollPos (s : MState) (scrollPos : ℚ) : ℤ :=
  let w := s.slideWidthPx
  if w = 0 then s.currentIndex
  else
    let maxIdx : ℤ :=
      if s.loopModeActive then (s.slideCount : ℤ) - 1 else getMaxIndex s
    let maxScroll := s.trackScrollSize - s.viewportSize
    if !isFractionalView s then
      max 0 (min (jround (scrollPos / w)) maxIdx)
    else if maxScroll ≤ 0 then 0
    else if scrollPos ≤ 1 then 0
    else if maxScroll - 1 ≤ scrollPos then maxIdx
    else
      let viewportCenter := scrollPos + s.viewportSize / 2
      let slideVisual := w - s.gap
      max 0 (min (jround ((viewportCenter - slideVisual / 2) / w)) maxIdx)

/-- `getLoopRealStart` of the loop controller:
`cloneSets * slideCount * state.slideWidthPx`. -/
def getLoopRealStart (s : MState) : ℚ :=
  (s.cloneSets : ℚ) * (s.slideCount : ℚ) * s.slideWidthPx

/-- `getLoopIndexFromScroll` of the loop controller, with the scroll
position passed explicitly (the source reads it via `ctx.getScrollPos()`). -/
def getLoopIndexFromScroll (s : MState) (pos : ℚ) : ℤ :=
  let w := s.slideWidthPx
  if w = 0 then s.currentIndex
  else if isFractionalView s then
    let slideVisual := w - s.gap
    let viewportCenter := pos + s.viewportSize / 2
    jsWrap (jround ((viewportCenter - getLoopRealStart s - slideVisual / 2) / w))
      s.slideCount
  else
    jsWrap (jround ((pos - getLoopRealStart s) / w)) s.slideCount

/-- The signed slide delta `goTo` computes in loop mode:
`forward = (target - actualCurrent + slideCount) % slideCount`,
`backward = forward - slideCount`,
`delta = Math.abs(backward) < forward ? backward : forward`. -/
def loopGoToDelta (s : MState) (target actual : ℤ) : ℤ :=
  let forward := jsRem (target - actual + s.slideCount) s.slideCount
  let backward := forward - s.slideCount
  if |backward| < forward then backward else forward

/-- `MOMENTUM_FACTOR` from constants. -/
def MOMENTUM_FACTOR : ℚ := 80

/-- The raw index computed by `onPointerUp` when loop mode is active,
before normalization. -/
def dragProjectedIndexLoop (s : MState) (velocity : ℚ) : ℤ :=
  let w := s.slideWidthPx
  let realStart := getLoopRealStart s
  if isFractionalView s then
    let slideVisual := w - s.gap
    let projectedCenter := s.scrollPos + velocity * MOMENTUM_FACTOR + s.viewportSize / 2
    jround ((projectedCenter - realStart - slideVisual / 2) / w)
  else
    jround ((s.scrollPos - realStart + velocity * MOMENTUM_FACTOR) / w)

/-- The normalized target written to `currentIndex` by `onPointerUp` in
loop mode. -/
def dragLandingIndexLoop (s : MState) (velocity : ℚ) : ℤ :=
  normInt s (dragProjectedIndexLoop s velocity)

/-- The landing index passed to `goTo` by `onPointerUp` outside loop
mode: `getIndexFromScrollPos(scrollPos + velocity * MOMENTUM_FACTOR)`. -/
def dragLandingIndexNonLoop (s : MState) (velocity : ℚ) : ℤ :=
  getIndexFromScrollPos s (s.scrollPos + velocity * MOMENTUM_FACTOR)

/-- The arguments `syncThumbnails` passes to `thumbnail.update` on bind. -/
structure ThumbnailUpdateArgs where
  draggable : Bool
  loop : Bool
  deriving DecidableEq, Repr

/-- The reconfiguration `syncThumbnails` performs on bind (sync.ts):
`thumbnail.update({ draggable: false, loop: options?.loop ?? true })`.
The primary slider's loop mode is passed as a parameter to express the
specification's claim about it; the source never consults it. -/
def syncThumbnailsUpdateArgs (primaryLoop : Bool) (optLoop : Option Bool) :
    ThumbnailUpdateArgs :=
  { draggable := false, loop := optLoop.getD true }

/-- The loop value the specification claims `syncThumbnails` uses:
the explicit override when present, otherwise the primary slider's loop
mode.  Stated from the spec's words for comparison with
`syncThumbnailsUpdateArgs`. -/
def specThumbnailLoop (primaryLoop : Bool) (optLoop : Option Bool) : Bool :=
  optLoop.getD primaryLoop

/-! ## State machine for the public operations

Each public operation is a function on `MState` (plus explicit inputs
for quantities the DOM supplies).  DOM side effects that feed back into
the engine only through fields of `MState` (clone insertion/removal,
class toggling, event emission) have no modeled state of their own. -/

/-- `getSlideSize()`: return the cached `slideWidthPx` when positive,
otherwise measure the first slide (`rect + gap`), cache and return it;
return `0` when no slide exists. -/
def mGetSlideSize (s : MState) : ℚ × MState :=
  if 0 < s.slideWidthPx then (s.slideWidthPx, s)
  else if s.slideCount = 0 then (0, s)
  else (s.firstSlideRect + s.gap, { s with slideWidthPx := s.firstSlideRect + s.gap })

/-- `recalcSlideMetrics()`: reset the cache to `0`, then `getSlideSize()`. -/
def mRecalc (s : MState) : MState :=
  (mGetSlideSize { s with slideWidthPx := 0 }).2

/-- `calcCloneSets()` of the loop controller:
`max(MIN_CLONE_SETS, ceil((ceil(slidesPerView) + CLONE_BUFFER) / slideCount))`
with `MIN_CLONE_SETS = 3`, `CLONE_BUFFER = 2`. -/
def calcCloneSets (s : MState) : ℕ :=
  (max 3 ⌈((⌈s.slidesPerView⌉ + 2 : ℤ) : ℚ) / (s.slideCount : ℚ)⌉).toNat

/-- `teardownLoopTrack(anchorIndex)`: drop clones, leave loop mode,
re-measure, clamp the anchor into `[0, maxIndex]` and scroll to its
position.  Clone removal changes the DOM track size; `trackScrollSize`
is an external input and is left to be refreshed by the host. -/
def mTeardownLoopTrack (s : MState) (anchor : ℤ) : MState :=
  let s1 := mRecalc { s with loopModeActive := false }
  let idx := max 0 (min anchor (getMaxIndex s1))
  let s2 := { s1 with currentIndex := idx }
  { s2 with scrollPos := getScrollPosForIndex s2 (idx : ℚ) }

/-- `setupLoopTrack(anchorIndex)`: when loop is not enabled tear down if
needed; otherwise rebuild clones, enter loop mode, re-measure, normalize
the anchor and jump to its position inside the real window. -/
def mSetupLoopTrack (s : MState) (anchor : ℤ) : MState :=
  if !isLoopEnabled s then
    if s.loopModeActive then mTeardownLoopTrack s anchor else s
  else
    let s1 := mRecalc { s with cloneSets := calcCloneSets s, loopModeActive := true }
    let idx := normInt s1 anchor
    let s2 := { s1 with currentIndex := idx }
    let w := s2.slideWidthPx
    let realStart := (s2.cloneSets : ℚ) * (s2.slideCount : ℚ) * w
    let pos :=
      if isFractionalView s2 then
        realStart + (idx : ℚ) * w + (w - s2.gap) / 2 - s2.viewportSize / 2
      else realStart + (idx : ℚ) * w
    { s2 with scrollPos := pos }

/-- `syncIndex()`: ignore scroll echoes while dragging or during a
programmatic scroll; otherwise recompute the index from the scroll
position and store it if changed. -/
def mSyncIndex (s : MState) : MState :=
  if s.isDragging || s.isProgrammaticScroll then s
  else
    let idx :=
      if s.loopModeActive then getLoopIndexFromScroll s s.scrollPos
      else
        let ws := mGetSlideSize s
        getIndexFromScrollPos { ws.2 with slideWidthPx := ws.1 } s.scrollPos
    let s1 := if s.loopModeActive then s else (mGetSlideSize s).2
    if idx ≠ s1.currentIndex then { s1 with currentIndex := idx } else s1

/-- `goTo(index)` for an integer argument.  Loop-mode scrolls are issued
as a relative delta from the actual on-track position; `scrollPos` is
set to the commanded target (the host's smooth scroll settles there). -/
def mGoTo (s : MState) (index : ℤ) : MState :=
  if s.isDestroyed then s
  else
    let target := normInt s index
    let ws := mGetSlideSize s
    let w := ws.1
    let s1 := ws.2
    if w = 0 then s1
    else
      let s2 := if target ≠ s1.currentIndex then { s1 with currentIndex := target } else s1
      if s2.loopModeActive then
        let s3 := { s2 with isProgrammaticScroll := true }
        let actual := getLoopIndexFromScroll s3 s3.scrollPos
        let delta := loopGoToDelta s3 target actual
        if delta = 0 then
          let realStart := getLoopRealStart s3
          let pos :=
            if isFractionalView s3 then
              realStart + (target : ℚ) * w + (w - s3.gap) / 2 - s3.viewportSize / 2
            else realStart + (target : ℚ) * w
          { s3 with scrollPos := pos }
        else { s3 with scrollPos := s3.scrollPos + (delta : ℚ) * w }
      else
        { s2 with isProgrammaticScroll := true,
                  scrollPos := getScrollPosForIndex s2 (target : ℚ) }

/-- `next()`: `goTo(normalizeIndex(currentIndex + perMove))`. -/
def mNext (s : MState) : MState :=
  if s.isDestroyed then s
  else mGoTo s (normInt s (s.currentIndex + getEffectivePerMove s))

/-- `prev()`: `goTo(normalizeIndex(currentIndex - perMove))`. -/
def mPrev (s : MState) : MState :=
  if s.isDestroyed then s
  else mGoTo s (normInt s (s.currentIndex - getEffectivePerMove s))

/-- The layout values `readCssLayoutConfig()` produces. -/
structure CssLayout where
  slidesPerView : ℚ
  gap : ℚ
  deriving DecidableEq, Repr

/-- A partial config passed to `update` (absent fields keep their value). -/
structure UpdateCfg where
  loop : Option Bool
  perMove : Option ℤ
  deriving DecidableEq, Repr

/-- The config merge at the start of `update`:
`config = { ...config, ...readCssLayoutConfig(), ...(nextConfig ?? {}) }`. -/
def mUpdateMerge (s : MState) (css : CssLayout) (nextConfig : Option UpdateCfg) :
    MState :=
  let ncLoop := match nextConfig with | some c => c.loop | none => none
  let ncPerMove := match nextConfig with | some c => c.perMove | none => none
  { s with slidesPerView := css.slidesPerView, gap := css.gap,
           cfgLoop := ncLoop.getD s.cfgLoop,
           cfgPerMove := match ncPerMove with
             | some p => some p
             | none => s.cfgPerMove }

/-- The loop-transition phase of `update`: rebuild or tear down clones
when the `loop` flag changed, rebuild on a `slidesPerView` change while
loop mode is active. -/
def mUpdateLoopPhase (s : MState) (prevLoop : Bool) (prevSpv : ℚ) : MState :=
  if prevLoop ≠ s.cfgLoop then
    if isLoopEnabled s then mSetupLoopTrack s s.currentIndex
    else mTeardownLoopTrack s s.currentIndex
  else if s.loopModeActive && decide (prevSpv ≠ s.slidesPerView) then
    mSetupLoopTrack s s.currentIndex
  else s

/-- The non-loop realignment shared by `update` and `refresh`:
`if (!state.loopModeActive) { currentIndex = normalizeIndex(currentIndex);
scrollToPos(getScrollPosForIndex(currentIndex)); }`. -/
def mNonLoopRealign (s : MState) : MState :=
  if !s.loopModeActive then
    let norm := normInt s s.currentIndex
    let s1 := { s with currentIndex := norm }
    { s1 with scrollPos := getScrollPosForIndex s1 (norm : ℚ) }
  else s

/-- `update(nextConfig?)`.  Faithful to the source, this operation does
NOT check `isDestroyed`.  Sequence: merge config (CSS layout, then the
explicit partial config), re-measure, rebuild loop clones on a
loop/slidesPerView change, re-normalize and re-scroll outside loop mode,
then `syncIndex()`. -/
def mUpdate (s : MState) (css : CssLayout) (nextConfig : Option UpdateCfg) : MState :=
  mSyncIndex (mNonLoopRealign
    (mUpdateLoopPhase (mRecalc (mUpdateMerge s css nextConfig))
      s.cfgLoop s.slidesPerView))

/-- The tail of `refresh()` after the slide set was re-scanned and the
layout re-measured: rebuild clones when loop is enabled, re-normalize
outside loop mode, then `syncIndex()`. -/
def mRefreshTail (s3 : MState) : MState :=
  mSyncIndex (mNonLoopRealign
    (if isLoopEnabled s3 then mSetupLoopTrack s3 s3.currentIndex else s3))

/-- `refresh()` after the initial teardown: adopt the freshly scanned
slide count (returning early when it is zero), re-read the CSS layout
and re-measure, then run the tail. -/
def mRefreshScan (t : MState) (newCount : ℕ) (css : CssLayout) : MState :=
  if newCount = 0 then { t with slideCount := newCount }
  else
    mRefreshTail (mRecalc { t with slideCount := newCount,
                                   slidesPerView := css.slidesPerView,
                                   gap := css.gap })

/-- `refresh()`: tear down loop clones, re-scan the slide set
(`newCount` real slides found in the DOM), and reconcile.  When zero
slides are found the function records `slideCount = 0` and returns
early, leaving `currentIndex` untouched. -/
def mRefresh (s : MState) (newCount : ℕ) (css : CssLayout) : MState :=
  if s.isDestroyed then s
  else
    mRefreshScan
      (if s.loopModeActive then mTeardownLoopTrack s s.currentIndex else s)
      newCount css

/-- `add(slides, index?)`: tear down loop clones, insert `numAdded`
slides into the DOM, then `refresh()`. -/
def mAdd (s : MState) (numAdded : ℕ) (css : CssLayout) : MState :=
  if s.isDestroyed then s
  else
    let s1 := if s.loopModeActive then mTeardownLoopTrack s s.currentIndex else s
    mRefresh s1 (s1.slideCount + numAdded) css

/-- `remove(indices)`: tear down loop clones, remove the in-range
indices (`numRemoved ≤ slideCount` of them), then `refresh()`. -/
def mRemove (s : MState) (numRemoved : ℕ) (css : CssLayout) : MState :=
  if s.isDestroyed then s
  else
    let s1 := if s.loopModeActive then mTeardownLoopTrack s s.currentIndex else s
    mRefresh s1 (s1.slideCount - numRemoved) css

/-- `destroy()`: mark destroyed, tear down loop mode, clear the
programmatic-scroll flag and all listeners/timers. -/
def mDestroy (s : MState) : MState :=
  if s.isDestroyed then s
  else
    let s1 := { s with isDestroyed := true }
    let s2 := if s1.loopModeActive then mTeardownLoopTrack s1 s1.currentIndex else s1
    { s2 with isProgrammaticScroll := false }

/-- Scroll settling (`onScrollSettle`): clear the programmatic-scroll
flag and `syncIndex()`. -/
def mScrollSettle (s : MState) : MState :=
  mSyncIndex { s with isProgrammaticScroll := false }

/-- Construction (`createSlider`): fresh state with `currentIndex = 0`,
then either `setupLoopTrack(0)` or an instant scroll to `0`.
Construction throws when `slideCount = 0`, so states with at least one
slide are the ones reachable. -/
def mInit (slideCount : ℕ) (cfgLoop : Bool) (cfgPerMove : Option ℤ)
    (css : CssLayout) (viewportSize trackScrollSize firstSlideRect : ℚ) : MState :=
  let s0 : MState :=
    { currentIndex := 0, isDestroyed := false, loopModeActive := false,
      isDragging := false, isProgrammaticScroll := false, slideWidthPx := 0,
      slideCount := slideCount, cloneSets := 3, cfgLoop := cfgLoop,
      cfgPerMove := cfgPerMove, slidesPerView := css.slidesPerView,
      gap := css.gap, viewportSize := viewportSize,
      trackScrollSize := trackScrollSize, scrollPos := 0,
      firstSlideRect := firstSlideRect }
  let s1 := mRecalc s0
  if isLoopEnabled s1 then mSetupLoopTrack s1 0 else { s1 with scrollPos := 0 }

/-! ## Arithmetic facts about the JavaScript primitives -/

theorem jsRem_eq_emod_of_nonneg {a : ℤ} (n : ℤ) (ha : 0 ≤ a) (hn : 0 ≤ n) :
    jsRem a n = a % n :=
  Int.tmod_eq_emod ha hn

theorem jsRem_emod (a n : ℤ) : jsRem a n % n = a % n := by
  rw [jsRem, Int.tmod_def, show a - n * a.tdiv n = a + n * (-a.tdiv n) by ring,
    Int.add_mul_emod_self_left]

theorem neg_lt_jsRem (a : ℤ) {n : ℤ} (hn : 0 < n) : -n < jsRem a n := by
  have h1 : jsRem (-a) n < n := Int.tmod_lt_of_pos (-a) hn
  have h2 : jsRem (-a) n = -jsRem a n := by
    simp only [jsRem, Int.tmod_def, Int.neg_tdiv]
    ring
  omega

theorem jsRem_lt (a : ℤ) {n : ℤ} (hn : 0 < n) : jsRem a n < n :=
  Int.tmod_lt_of_pos a hn

theorem jsWrap_eq_emod (a : ℤ) {n : ℤ} (hn : 0 < n) : jsWrap a n = a % n := by
  have h1 : 0 ≤ jsRem a n + n := by have := neg_lt_jsRem a hn; omega
  rw [jsWrap, jsRem_eq_emod_of_nonneg n h1 hn.le,
    show jsRem a n + n = jsRem a n + n * 1 by ring,
    Int.add_mul_emod_self_left, jsRem_emod]

theorem jsWrap_nonneg (a : ℤ) {n : ℤ} (hn : 0 < n) : 0 ≤ jsWrap a n := by
  rw [jsWrap_eq_emod a hn]; exact Int.emod_nonneg a hn.ne'

theorem jsWrap_lt (a : ℤ) {n : ℤ} (hn : 0 < n) : jsWrap a n < n := by
  rw [jsWrap_eq_emod a hn]; exact Int.emod_lt_of_pos a hn

theorem jsWrap_add_mul (r k : ℤ) {n : ℤ} (hn : 0 ≤ n) :
    jsWrap (r + k * n) n = jsWrap r n := by
  rcases hn.lt_or_eq with h | h
  · rw [jsWrap_eq_emod _ h, jsWrap_eq_emod _ h, mul_comm k n, Int.add_mul_emod_self_left]
  · subst h; simp

theorem jround_intCast (i : ℤ) : jround (i : ℚ) = i := by
  rw [jround, Int.floor_int_add]
  norm_num

theorem jround_add_int (q : ℚ) (m : ℤ) : jround (q + m) = jround q + m := by
  rw [jround, jround, add_right_comm, Int.floor_add_int]

theorem jtrunc_intCast (i : ℤ) : jtrunc (i : ℚ) = i := by
  unfold jtrunc
  split <;> simp

/-! ## Basic facts about the translator helpers -/

theorem getMaxIndex_nonneg (s : MState) : 0 ≤ getMaxIndex s := by
  unfold getMaxIndex
  split <;> exact le_max_left 0 _

theorem getMaxIndex_lt_slideCount (s : MState) (hspv : 0 < s.slidesPerView)
    (hn : 0 < s.slideCount) : getMaxIndex s < s.slideCount := by
  have hn1 : (1 : ℤ) ≤ s.slideCount := by exact_mod_cast hn
  unfold getMaxIndex
  split
  · omega
  · have hf : ⌊(s.slideCount : ℚ) - s.slidesPerView⌋ < (s.slideCount : ℤ) := by
      rw [Int.floor_lt]
      push_cast
      linarith
    omega

theorem slideCount_pos_of_loopEnabled (s : MState) (hspv : 0 < s.slidesPerView)
    (hloop : isLoopEnabled s = true) : 0 < s.slideCount := by
  rcases Bool.and_eq_true_iff.mp hloop with ⟨-, hmax⟩
  have hmax2 : 0 < getMaxIndex s := of_decide_eq_true hmax
  unfold getMaxIndex at hmax2
  split at hmax2
  · omega
  · have h1 : (1 : ℤ) ≤ ⌊(s.slideCount : ℚ) - s.slidesPerView⌋ := by omega
    have h2 : ((1 : ℤ) : ℚ) ≤ (s.slideCount : ℚ) - s.slidesPerView := Int.le_floor.mp h1
    have h3 : (0 : ℚ) < (s.slideCount : ℚ) := by
      push_cast at h2
      linarith
    exact_mod_cast h3

theorem normInt_mem (s : MState) (i : ℤ) (hspv : 0 < s.slidesPerView)
    (hn : 0 < s.slideCount) : 0 ≤ normInt s i ∧ normInt s i < s.slideCount := by
  have hmax0 := getMaxIndex_nonneg s
  have hmaxlt := getMaxIndex_lt_slideCount s hspv hn
  have hnz : (0 : ℤ) < s.slideCount := by exact_mod_cast hn
  unfold normInt
  split
  · constructor
    · exact le_max_left 0 _
    · have : min i (getMaxIndex s) ≤ getMaxIndex s := min_le_right _ _
      omega
  · exact ⟨jsWrap_nonneg i hnz, jsWrap_lt i hnz⟩

theorem getLoopIndexFromScroll_mem (s : MState) (p : ℚ)
    (hw : s.slideWidthPx ≠ 0) (hn : 0 < s.slideCount) :
    0 ≤ getLoopIndexFromScroll s p ∧ getLoopIndexFromScroll s p < s.slideCount := by
  have hnz : (0 : ℤ) < s.slideCount := by exact_mod_cast hn
  unfold getLoopIndexFromScroll
  simp only [hw, if_false]
  split
  · exact ⟨jsWrap_nonneg _ hnz, jsWrap_lt _ hnz⟩
  · exact ⟨jsWrap_nonneg _ hnz, jsWrap_lt _ hnz⟩

theorem jround_div_add_mul (w : ℚ) (hw : w ≠ 0) (X : ℚ) (m : ℤ) :
    jround ((X + (m : ℚ) * w) / w) = jround (X / w) + m := by
  rw [add_div, mul_div_assoc, div_self hw, mul_one, jround_add_int]

/-- C3: in loop mode, logical index recovery from a scroll position is
invariant under shifting the position by any whole number of sections
(`slideCount * slideSize`), in both the fractional-view and the
integer-view formula of `getLoopIndexFromScroll`. -/
theorem getLoopIndexFromScroll_section_shift (s : MState) (p : ℚ) (k : ℤ) :
    getLoopIndexFromScroll s (p + (k : ℚ) * (s.slideCount : ℚ) * s.slideWidthPx) =
      getLoopIndexFromScroll s p := by
  by_cases hw : s.slideWidthPx = 0
  · rw [hw, mul_zero, add_zero]
  · have hn : (0 : ℤ) ≤ (s.slideCount : ℤ) := Int.natCast_nonneg _
    simp only [getLoopIndexFromScroll, hw, if_false]
    by_cases hf : isFractionalView s = true
    · rw [if_pos hf, if_pos hf]
      have e1 : p + (k : ℚ) * (s.slideCount : ℚ) * s.slideWidthPx + s.viewportSize / 2 -
            getLoopRealStart s - (s.slideWidthPx - s.gap) / 2 =
          (p + s.viewportSize / 2 - getLoopRealStart s - (s.slideWidthPx - s.gap) / 2) +
            ((k * (s.slideCount : ℤ) : ℤ) : ℚ) * s.slideWidthPx := by
        push_cast
        ring
      rw [e1, jround_div_add_mul _ hw, jsWrap_add_mul _ _ hn]
    · rw [if_neg hf, if_neg hf]
      have e1 : p + (k : ℚ) * (s.slideCount : ℚ) * s.slideWidthPx - getLoopRealStart s =
          (p - getLoopRealStart s) + ((k * (s.slideCount : ℤ) : ℤ) : ℚ) * s.slideWidthPx := by
        push_cast
        ring
      rw [e1, jround_div_add_mul _ hw, jsWrap_add_mul _ _ hn]

/-- C4: the signed slide delta chosen by `goTo` in loop mode — between
the forward delta `(target - actualCurrent + slideCount) % slideCount`
and that value minus `slideCount` — has absolute value at most
`slideCount / 2` (stated multiplied out as `2 * |delta| ≤ slideCount`),
for the target produced by index normalization and the actual on-track
index recovered from any scroll position. -/
theorem goTo_loop_shortest_path (s : MState) (index : ℤ) (p : ℚ)
    (hspv : 0 < s.slidesPerView) (hloop : isLoopEnabled s = true)
    (hw : s.slideWidthPx ≠ 0) :
    2 * |loopGoToDelta s (normInt s index) (getLoopIndexFromScroll s p)| ≤
      s.slideCount := by
  have hn : 0 < s.slideCount := slideCount_pos_of_loopEnabled s hspv hloop
  have hnz : (0 : ℤ) < (s.slideCount : ℤ) := by exact_mod_cast hn
  obtain ⟨ht0, ht1⟩ := normInt_mem s index hspv hn
  obtain ⟨ha0, ha1⟩ := getLoopIndexFromScroll_mem s p hw hn
  set t := normInt s index with hts
  set a := getLoopIndexFromScroll s p with has
  have harg : 0 ≤ t - a + (s.slideCount : ℤ) := by omega
  simp only [loopGoToDelta]
  rw [jsRem_eq_emod_of_nonneg _ harg hnz.le]
  set f := (t - a + (s.slideCount : ℤ)) % (s.slideCount : ℤ) with hfs
  have hf0 : 0 ≤ f := Int.emod_nonneg _ hnz.ne'
  have hf1 : f < (s.slideCount : ℤ) := Int.emod_lt_of_pos _ hnz
  split
  case isTrue h =>
    rw [abs_of_nonpos (by omega)]
    rw [abs_of_nonpos (by omega)] at h
    omega
  case isFalse h =>
    rw [abs_of_nonpos (by omega)] at h
    rw [abs_of_nonneg hf0]
    omega

/-- C4 witness: a concrete loop-enabled state. -/
def W4 : MState :=
  { currentIndex := 0, isDestroyed := false, loopModeActive := true,
    isDragging := false, isProgrammaticScroll := false, slideWidthPx := 10,
    slideCount := 5, cloneSets := 3, cfgLoop := true, cfgPerMove := none,
    slidesPerView := 1, gap := 0, viewportSize := 10, trackScrollSize := 250,
    scrollPos := 150, firstSlideRect := 10 }

theorem goTo_loop_shortest_path_witness :
    2 * |loopGoToDelta W4 (normInt W4 4) (getLoopIndexFromScroll W4 150)| ≤
      W4.slideCount := by
  apply goTo_loop_shortest_path W4 4 150
  · norm_num [W4]
  · simp only [isLoopEnabled, getMaxIndex, isFractionalView, W4]
    norm_num
  · norm_num [W4]

theorem normalizeIndex_intCast (s : MState) (i : ℤ) :
    normalizeIndex s (i : ℚ) = ((normInt s i : ℤ) : ℚ) := by
  unfold normalizeIndex normInt
  split
  · push_cast
    rfl
  · rw [jtrunc_intCast]

/-- C6: index normalization is total on all integers and never rejects:
with loop disabled it clamps into `[0, maxIndex]`, with loop enabled it
wraps modulo `slideCount` into `[0, slideCount)`. -/
theorem normalizeIndex_clamps_or_wraps (s : MState) (i : ℤ) (hn : 0 < s.slideCount) :
    (isLoopEnabled s = false →
      normalizeIndex s (i : ℚ) = ((max 0 (min i (getMaxIndex s)) : ℤ) : ℚ) ∧
      0 ≤ normalizeIndex s (i : ℚ) ∧
      normalizeIndex s (i : ℚ) ≤ (getMaxIndex s : ℚ)) ∧
    (isLoopEnabled s = true →
      normalizeIndex s (i : ℚ) = ((i % (s.slideCount : ℤ) : ℤ) : ℚ) ∧
      0 ≤ normalizeIndex s (i : ℚ) ∧
      normalizeIndex s (i : ℚ) < (s.slideCount : ℚ)) := by
  have hnz : (0 : ℤ) < (s.slideCount : ℤ) := by exact_mod_cast hn
  rw [normalizeIndex_intCast]
  constructor
  · intro h
    have hmax0 := getMaxIndex_nonneg s
    have he : normInt s i = max 0 (min i (getMaxIndex s)) := by
      unfold normInt
      rw [if_pos]
      rw [h]
      rfl
    refine ⟨by exact_mod_cast congrArg (Int.cast : ℤ → ℚ) he, ?_, ?_⟩
    · have : 0 ≤ normInt s i := by rw [he]; exact le_max_left 0 _
      exact_mod_cast this
    · have : normInt s i ≤ getMaxIndex s := by
        rw [he]
        have := min_le_right i (getMaxIndex s)
        omega
      exact_mod_cast this
  · intro h
    have he : normInt s i = jsWrap i s.slideCount := by
      unfold normInt
      rw [if_neg]
      rw [h]
      simp
    have he2 : normInt s i = i % (s.slideCount : ℤ) := by
      rw [he, jsWrap_eq_emod i hnz]
    refine ⟨by exact_mod_cast congrArg (Int.cast : ℤ → ℚ) he2, ?_, ?_⟩
    · have : 0 ≤ normInt s i := by rw [he2]; exact Int.emod_nonneg i hnz.ne'
      exact_mod_cast this
    · have : normInt s i < (s.slideCount : ℤ) := by
        rw [he2]
        exact Int.emod_lt_of_pos i hnz
      exact_mod_cast this

/-- C6 witness: wrapping a negative index on a concrete loop-enabled
state, and clamping a too-large index on a concrete non-loop state. -/
theorem normalizeIndex_clamps_or_wraps_witness :
    normalizeIndex W4 ((-7 : ℤ) : ℚ) = 3 ∧
    normalizeIndex { W4 with cfgLoop := false } ((9 : ℤ) : ℚ) = 4 := by
  have hl : isLoopEnabled W4 = true := by
    simp only [isLoopEnabled, getMaxIndex, isFractionalView, W4]
    norm_num
  have hnl : isLoopEnabled { W4 with cfgLoop := false } = false := by
    simp [isLoopEnabled, W4]
  constructor
  · have h := ((normalizeIndex_clamps_or_wraps W4 (-7) (by norm_num [W4])).2 hl).1
    rw [h]
    norm_num [W4]
  · have h :=
      ((normalizeIndex_clamps_or_wraps { W4 with cfgLoop := false } 9
        (by norm_num [W4])).1 hnl).1
    rw [h]
    simp only [getMaxIndex, isFractionalView, W4]
    norm_num

/-- C8 counterexample: with no explicit override and a primary whose
loop mode is `false`, `syncThumbnails` configures the thumbnail with
`loop = true`, not with the primary's loop mode. -/
theorem syncThumbnails_loop_not_primary :
    (syncThumbnailsUpdateArgs false none).loop ≠ specThumbnailLoop false none := by
  decide

/-- C8 amended: on bind the thumbnail is reconfigured with dragging
disabled and with loop equal to the explicit override when one is
passed; with no override the loop defaults to `true` regardless of the
primary slider's loop mode. -/
theorem syncThumbnailsUpdateArgs_spec (pl : Bool) (ol : Option Bool) :
    (syncThumbnailsUpdateArgs pl ol).draggable = false ∧
    (∀ b, ol = some b → (syncThumbnailsUpdateArgs pl ol).loop = b) ∧
    (ol = none → (syncThumbnailsUpdateArgs pl ol).loop = true) := by
  refine ⟨rfl, ?_, ?_⟩
  · intro b hb
    rw [hb]
    rfl
  · intro hb
    rw [hb]
    rfl

theorem syncThumbnailsUpdateArgs_spec_witness :
    (syncThumbnailsUpdateArgs true (some false)).loop = false ∧
    (syncThumbnailsUpdateArgs false none).loop = true :=
  ⟨(syncThumbnailsUpdateArgs_spec true (some false)).2.1 false rfl,
   (syncThumbnailsUpdateArgs_spec false none).2.2 rfl⟩

/-- C10: when `perMove` is absent, zero or negative, the effective
per-move step is `1`: `next()` and `prev()` pass exactly
`normalizeIndex(currentIndex ± 1)` to `goTo`, and away from the clamp
boundary `next()` advances `currentIndex` by exactly `1`. -/
theorem perMove_nonpositive_step_one (s : MState)
    (h : s.cfgPerMove = none ∨ ∃ p, s.cfgPerMove = some p ∧ p ≤ 0) :
    getEffectivePerMove s = 1 ∧
    mNext s = (if s.isDestroyed then s else mGoTo s (normInt s (s.currentIndex + 1))) ∧
    mPrev s = (if s.isDestroyed then s else mGoTo s (normInt s (s.currentIndex - 1))) ∧
    (s.isDestroyed = false → isLoopEnabled s = false → 0 < s.slideWidthPx →
      0 ≤ s.currentIndex → s.currentIndex < getMaxIndex s →
      (mNext s).currentIndex = s.currentIndex + 1) := by
  have he : getEffectivePerMove s = 1 := by
    rcases h with h | ⟨p, hp, hp2⟩
    · simp [getEffectivePerMove, h]
    · simp [getEffectivePerMove, hp, not_lt.mpr hp2]
  refine ⟨he, by rw [mNext, he], by rw [mPrev, he], ?_⟩
  intro hd hl hw h0 hmax
  have hnorm : normInt s (s.currentIndex + 1) = s.currentIndex + 1 := by
    unfold normInt
    rw [if_pos (by rw [hl]; rfl)]
    omega
  have hmeas : mGetSlideSize s = (s.slideWidthPx, s) := by
    unfold mGetSlideSize
    rw [if_pos hw]
  have hdne : ¬s.isDestroyed = true := by rw [hd]; exact Bool.false_ne_true
  rw [mNext, if_neg hdne, he, hnorm, mGoTo, if_neg hdne, hnorm, hmeas]
  dsimp only
  rw [if_neg (ne_of_gt hw),
    if_pos (show s.currentIndex + 1 ≠ s.currentIndex by omega)]
  dsimp only
  split
  · split <;> rfl
  · rfl

/-- C10 witness: a concrete state with `perMove = some 0`. -/
def W10 : MState :=
  { currentIndex := 1, isDestroyed := false, loopModeActive := false,
    isDragging := false, isProgrammaticScroll := false, slideWidthPx := 10,
    slideCount := 5, cloneSets := 3, cfgLoop := false, cfgPerMove := some 0,
    slidesPerView := 1, gap := 0, viewportSize := 10, trackScrollSize := 50,
    scrollPos := 10, firstSlideRect := 10 }

theorem perMove_nonpositive_step_one_witness :
    getEffectivePerMove W10 = 1 ∧ (mNext W10).currentIndex = 2 := by
  have h := perMove_nonpositive_step_one W10 (Or.inr ⟨0, rfl, le_refl 0⟩)
  refine ⟨h.1, ?_⟩
  have h4 := h.2.2.2 rfl (by simp [isLoopEnabled, W10]) (by norm_num [W10])
    (by norm_num [W10])
    (by simp only [getMaxIndex, isFractionalView, W10]; norm_num)
  rw [h4]
  norm_num [W10]

/-- C5: for fractional `slidesPerView` with loop inactive,
`getScrollPosForIndex` maps index `0` to `0` (flush start), index
`maxIndex` to `trackScrollSize - viewportSize` (flush end), and every
strictly interior index to the centered position
`index * slideSize + slideVisualSize / 2 - viewportSize / 2`. -/
theorem getScrollPosForIndex_fractional_nonloop (s : MState)
    (hf : isFractionalView s = true) (hl : s.loopModeActive = false)
    (hw : 0 < s.slideWidthPx) :
    getScrollPosForIndex s 0 = 0 ∧
    (0 < getMaxIndex s →
      getScrollPosForIndex s ((getMaxIndex s : ℤ) : ℚ) =
        s.trackScrollSize - s.viewportSize) ∧
    (∀ i : ℤ, 0 < i → (i : ℚ) < (getMaxIndex s : ℚ) →
      getScrollPosForIndex s (i : ℚ) =
        (i : ℚ) * s.slideWidthPx + (s.slideWidthPx - s.gap) / 2 -
          s.viewportSize / 2) := by
  have hwne : s.slideWidthPx ≠ 0 := ne_of_gt hw
  have hfneg : ¬(!isFractionalView s) = true := by rw [hf]; decide
  have hlneg : ¬s.loopModeActive = true := by rw [hl]; decide
  refine ⟨?_, ?_, ?_⟩
  · simp only [getScrollPosForIndex, if_neg hwne, if_neg hfneg, if_neg hlneg]
    rw [if_pos le_rfl]
  · intro hm
    simp only [getScrollPosForIndex, if_neg hwne, if_neg hfneg, if_neg hlneg]
    rw [if_neg (not_le.mpr (by exact_mod_cast hm)), if_pos le_rfl]
  · intro i hi0 him
    simp only [getScrollPosForIndex, if_neg hwne, if_neg hfneg, if_neg hlneg]
    rw [if_neg (not_le.mpr (by exact_mod_cast hi0)), if_neg (not_le.mpr him)]

/-- C5 witness: the spec scenario — ten slides, `slidesPerView = 2.5`,
slide size 100 (visual 90 plus gap 10), viewport 240, track 990.  Index
9 lands flush at `990 - 240 = 750`, not at the centered
`9 * 100 + 45 - 120 = 825`; index 4 is centered at `325`; index 0 is
flush at `0`. -/
def W5 : MState :=
  { currentIndex := 0, isDestroyed := false, loopModeActive := false,
    isDragging := false, isProgrammaticScroll := false, slideWidthPx := 100,
    slideCount := 10, cloneSets := 3, cfgLoop := false, cfgPerMove := none,
    slidesPerView := 5 / 2, gap := 10, viewportSize := 240,
    trackScrollSize := 990, scrollPos := 0, firstSlideRect := 90 }

theorem W5_fractional : isFractionalView W5 = true := by
  simp only [isFractionalView, W5]
  rw [bne_iff_ne]
  norm_num

theorem W5_maxIndex : getMaxIndex W5 = 9 := by
  simp only [getMaxIndex]
  rw [if_pos W5_fractional]
  norm_num [W5]

theorem getScrollPosForIndex_fractional_nonloop_witness :
    getScrollPosForIndex W5 ((9 : ℤ) : ℚ) = 750 ∧
    getScrollPosForIndex W5 ((4 : ℤ) : ℚ) = 325 ∧
    getScrollPosForIndex W5 0 = 0 := by
  have h := getScrollPosForIndex_fractional_nonloop W5 W5_fractional rfl
    (by norm_num [W5])
  refine ⟨?_, ?_, h.1⟩
  · have h9 := h.2.1 (by rw [W5_maxIndex]; norm_num)
    rw [W5_maxIndex] at h9
    rw [h9]
    norm_num [W5]
  · have h4 := h.2.2 4 (by norm_num) (by rw [W5_maxIndex]; norm_num)
    rw [h4]
    norm_num [W5]

/-- C1 counterexample state: three slides, fractional
`slidesPerView = 2.5`, slide size 10, but a viewport as large as the
whole track (`maxScroll = 0`). -/
def E1 : MState :=
  { currentIndex := 0, isDestroyed := false, loopModeActive := false,
    isDragging := false, isProgrammaticScroll := false, slideWidthPx := 10,
    slideCount := 3, cloneSets := 3, cfgLoop := false, cfgPerMove := none,
    slidesPerView := 5 / 2, gap := 2, viewportSize := 28,
    trackScrollSize := 28, scrollPos := 0, firstSlideRect := 8 }

theorem E1_fractional : isFractionalView E1 = true := by
  simp only [isFractionalView, E1]
  rw [bne_iff_ne]
  norm_num

theorem E1_maxIndex : getMaxIndex E1 = 2 := by
  simp only [getMaxIndex]
  rw [if_pos E1_fractional]
  norm_num [E1]

/-- C1 counterexample: the claim quantifies over any positive slide
size, gap, viewport size and slide count; with a viewport as large as
the track (`maxScroll ≤ 0`) the valid index `2 = maxIndex` maps to the
flush-end position `0`, which maps back to index `0`, not `2`. -/
theorem roundtrip_counterexample :
    getMaxIndex E1 = 2 ∧
    getIndexFromScrollPos E1 (getScrollPosForIndex E1 ((2 : ℤ) : ℚ)) = 0 := by
  have hwne : E1.slideWidthPx ≠ 0 := by norm_num [E1]
  have hfneg : ¬(!isFractionalView E1) = true := by rw [E1_fractional]; decide
  have hpos : getScrollPosForIndex E1 ((2 : ℤ) : ℚ) = 0 := by
    simp only [getScrollPosForIndex, if_neg hwne, if_neg hfneg]
    rw [if_neg (by norm_num [E1]), if_neg (by norm_num), if_pos]
    · norm_num [E1]
    · rw [E1_maxIndex]
  refine ⟨E1_maxIndex, ?_⟩
  rw [hpos]
  simp only [getIndexFromScrollPos, if_neg hwne, if_neg hfneg]
  rw [if_pos (by norm_num [E1])]

/-- C1 amended: the round trip
`getIndexFromScrollPos (getScrollPosForIndex i) = i` holds for every
valid index `i` in a non-loop configuration with positive slide size,
unconditionally for integer `slidesPerView`, and for fractional
`slidesPerView` whenever the scrollable range exceeds one pixel and
every interior centered position sits strictly more than one pixel away
from both track ends (the source absorbs the last pixel at either end
into the boundary indices). -/
theorem indexForScroll_scrollForIndex_roundtrip (s : MState) (i : ℤ)
    (hl : s.loopModeActive = false) (hw : 0 < s.slideWidthPx)
    (h0 : 0 ≤ i) (hmax : i ≤ getMaxIndex s)
    (hguard : isFractionalView s = true →
      1 < s.trackScrollSize - s.viewportSize ∧
      ∀ j : ℤ, 0 < j → j < getMaxIndex s →
        1 < (j : ℚ) * s.slideWidthPx + (s.slideWidthPx - s.gap) / 2 -
            s.viewportSize / 2 ∧
        (j : ℚ) * s.slideWidthPx + (s.slideWidthPx - s.gap) / 2 -
            s.viewportSize / 2 <
          s.trackScrollSize - s.viewportSize - 1) :
    getIndexFromScrollPos s (getScrollPosForIndex s (i : ℚ)) = i := by
  have hwne : s.slideWidthPx ≠ 0 := ne_of_gt hw
  have hlneg : ¬s.loopModeActive = true := by rw [hl]; decide
  by_cases hfr : isFractionalView s = true
  · have hfneg : ¬(!isFractionalView s) = true := by rw [hfr]; decide
    obtain ⟨hms, hint⟩ := hguard hfr
    by_cases hi0 : i = 0
    · subst hi0
      have hpos : getScrollPosForIndex s ((0 : ℤ) : ℚ) = 0 := by
        simp only [getScrollPosForIndex, if_neg hwne, if_neg hfneg, if_neg hlneg]
        rw [if_pos (by norm_num)]
      rw [hpos]
      simp only [getIndexFromScrollPos, if_neg hwne, if_neg hfneg]
      rw [if_neg (by linarith), if_pos (by norm_num)]
    · by_cases himax : i = getMaxIndex s
      · have hi1 : 0 < i := lt_of_le_of_ne h0 (Ne.symm hi0)
        have hpos : getScrollPosForIndex s (i : ℚ) =
            s.trackScrollSize - s.viewportSize := by
          simp only [getScrollPosForIndex, if_neg hwne, if_neg hfneg, if_neg hlneg]
          rw [if_neg (not_le.mpr (by exact_mod_cast hi1)),
            if_pos (by rw [himax])]
        rw [hpos]
        simp only [getIndexFromScrollPos, if_neg hwne, if_neg hfneg]
        rw [if_neg (by linarith), if_neg (by linarith), if_pos (by linarith)]
        simp only [hl, Bool.false_eq_true, if_false]
        omega
      · have hi1 : 0 < i := lt_of_le_of_ne h0 (Ne.symm hi0)
        have hi2 : i < getMaxIndex s := lt_of_le_of_ne hmax himax
        obtain ⟨hc1, hc2⟩ := hint i hi1 hi2
        have hpos : getScrollPosForIndex s (i : ℚ) =
            (i : ℚ) * s.slideWidthPx + (s.slideWidthPx - s.gap) / 2 -
              s.viewportSize / 2 := by
          simp only [getScrollPosForIndex, if_neg hwne, if_neg hfneg, if_neg hlneg]
          rw [if_neg (not_le.mpr (by exact_mod_cast hi1)),
            if_neg (not_le.mpr (by exact_mod_cast hi2))]
        rw [hpos]
        simp only [getIndexFromScrollPos, if_neg hwne, if_neg hfneg]
        rw [if_neg (by linarith), if_neg (by linarith), if_neg (by linarith)]
        have hcenter : ((i : ℚ) * s.slideWidthPx + (s.slideWidthPx - s.gap) / 2 -
            s.viewportSize / 2 + s.viewportSize / 2 - (s.slideWidthPx - s.gap) / 2) /
              s.slideWidthPx = ((i : ℤ) : ℚ) := by
          field_simp
        rw [hcenter, jround_intCast]
        simp only [hl, Bool.false_eq_true, if_false]
        omega
  · have hfpos : (!isFractionalView s) = true := by
      rw [Bool.eq_false_iff.mpr hfr]
      rfl
    have hpos : getScrollPosForIndex s (i : ℚ) = (i : ℚ) * s.slideWidthPx := by
      simp only [getScrollPosForIndex, if_neg hwne, if_pos hfpos]
    rw [hpos]
    simp only [getIndexFromScrollPos, if_neg hwne, if_pos hfpos]
    rw [mul_div_assoc, div_self hwne, mul_one, jround_intCast]
    simp only [hl, Bool.false_eq_true, if_false]
    omega

/-- C1 witness: a healthy fractional layout (ten slides,
`slidesPerView = 2.5`, slide size 100, gap 10, viewport 240, track 990)
where the round trip holds at index 5. -/
theorem indexForScroll_scrollForIndex_roundtrip_witness :
    getIndexFromScrollPos W5 (getScrollPosForIndex W5 ((5 : ℤ) : ℚ)) = 5 := by
  apply indexForScroll_scrollForIndex_roundtrip W5 5 rfl (by norm_num [W5])
    (by norm_num) (by rw [W5_maxIndex]; norm_num)
  intro hf
  constructor
  · norm_num [W5]
  · intro j hj0 hj9
    rw [W5_maxIndex] at hj9
    have hj0q : (1 : ℚ) ≤ (j : ℚ) := by exact_mod_cast hj0
    have hj9q : (j : ℚ) ≤ 8 := by
      have hj8 : j ≤ 8 := by omega
      exact_mod_cast hj8
    constructor
    · simp only [W5]
      nlinarith
    · simp only [W5]
      nlinarith

theorem getIndexFromScrollPos_mem_nonloop (s : MState) (p : ℚ)
    (hw : s.slideWidthPx ≠ 0) (hl : s.loopModeActive = false) :
    0 ≤ getIndexFromScrollPos s p ∧ getIndexFromScrollPos s p ≤ getMaxIndex s := by
  have hmax0 := getMaxIndex_nonneg s
  simp only [getIndexFromScrollPos, if_neg hw, hl, Bool.false_eq_true, if_false]
  split
  · omega
  · split
    · omega
    · split
      · omega
      · split
        · omega
        · omega

/-- C7: the landing index produced by drag release is always in range,
for any velocity: outside loop mode the index passed to `goTo` lies in
`[0, maxIndex]`; in loop mode the normalized target written to
`currentIndex` lies in `[0, slideCount)`. -/
theorem dragLandingIndex_inRange (s : MState) (v : ℚ)
    (hspv : 0 < s.slidesPerView) (hn : 0 < s.slideCount)
    (hw : 0 < s.slideWidthPx) :
    (s.loopModeActive = false →
      0 ≤ dragLandingIndexNonLoop s v ∧
      dragLandingIndexNonLoop s v ≤ getMaxIndex s) ∧
    (0 ≤ dragLandingIndexLoop s v ∧ dragLandingIndexLoop s v < s.slideCount) := by
  constructor
  · intro hl
    exact getIndexFromScrollPos_mem_nonloop s _ (ne_of_gt hw) hl
  · exact normInt_mem s _ hspv hn

/-- C7 witness: concrete drag releases with a large velocity on a
loop-active state and on a non-loop state. -/
theorem dragLandingIndex_inRange_witness :
    (0 ≤ dragLandingIndexNonLoop W10 1000 ∧
      dragLandingIndexNonLoop W10 1000 ≤ getMaxIndex W10) ∧
    (0 ≤ dragLandingIndexLoop W4 (-1000) ∧
      dragLandingIndexLoop W4 (-1000) < W4.slideCount) := by
  constructor
  · exact (dragLandingIndex_inRange W10 1000 (by norm_num [W10])
      (by norm_num [W10]) (by norm_num [W10])).1 rfl
  · exact (dragLandingIndex_inRange W4 (-1000) (by norm_num [W4])
      (by norm_num [W4]) (by norm_num [W4])).2

/-! ## The currentIndex range invariant -/

/-- The data-model invariant on `currentIndex`: an integer in
`[0, slideCount)`. -/
def Inv (s : MState) : Prop :=
  0 ≤ s.currentIndex ∧ s.currentIndex < (s.slideCount : ℤ)

theorem Inv.slideCount_pos {s : MState} (h : Inv s) : 0 < s.slideCount := by
  obtain ⟨h1, h2⟩ := h
  omega

theorem mGetSlideSize_shape (s : MState) :
    ∃ w w2, mGetSlideSize s = (w, { s with slideWidthPx := w2 }) := by
  unfold mGetSlideSize
  split_ifs
  · exact ⟨s.slideWidthPx, s.slideWidthPx, rfl⟩
  · exact ⟨0, s.slideWidthPx, rfl⟩
  · exact ⟨_, _, rfl⟩

theorem mRecalc_shape (s : MState) :
    ∃ w, mRecalc s = { s with slideWidthPx := w } := by
  unfold mRecalc mGetSlideSize
  split_ifs <;> exact ⟨_, rfl⟩

theorem mTeardownLoopTrack_frame (s : MState) (a : ℤ) :
    (mTeardownLoopTrack s a).slideCount = s.slideCount ∧
    (mTeardownLoopTrack s a).slidesPerView = s.slidesPerView ∧
    (mTeardownLoopTrack s a).cfgLoop = s.cfgLoop ∧
    (mTeardownLoopTrack s a).cfgPerMove = s.cfgPerMove ∧
    (mTeardownLoopTrack s a).isDestroyed = s.isDestroyed ∧
    (mTeardownLoopTrack s a).loopModeActive = false ∧
    (mTeardownLoopTrack s a).currentIndex = max 0 (min a (getMaxIndex s)) := by
  obtain ⟨w, hw⟩ := mRecalc_shape { s with loopModeActive := false }
  unfold mTeardownLoopTrack
  rw [hw]
  exact ⟨rfl, rfl, rfl, rfl, rfl, rfl, rfl⟩

theorem mTeardownLoopTrack_inv (s : MState) (a : ℤ) (hspv : 0 < s.slidesPerView)
    (hn : 0 < s.slideCount) : Inv (mTeardownLoopTrack s a) := by
  obtain ⟨hc, -, -, -, -, -, hcur⟩ := mTeardownLoopTrack_frame s a
  have h1 := getMaxIndex_nonneg s
  have h2 := getMaxIndex_lt_slideCount s hspv hn
  refine ⟨?_, ?_⟩
  · rw [hcur]
    omega
  · rw [hcur, hc]
    omega

theorem mSetupLoopTrack_frame (s : MState) (a : ℤ) :
    (mSetupLoopTrack s a).slideCount = s.slideCount ∧
    (mSetupLoopTrack s a).slidesPerView = s.slidesPerView ∧
    (mSetupLoopTrack s a).cfgLoop = s.cfgLoop ∧
    (mSetupLoopTrack s a).cfgPerMove = s.cfgPerMove ∧
    (mSetupLoopTrack s a).isDestroyed = s.isDestroyed := by
  unfold mSetupLoopTrack
  split_ifs
  · obtain ⟨h1, h2, h3, h4, h5, -, -⟩ := mTeardownLoopTrack_frame s a
    exact ⟨h1, h2, h3, h4, h5⟩
  · exact ⟨rfl, rfl, rfl, rfl, rfl⟩
  · obtain ⟨w, hw⟩ :=
      mRecalc_shape { s with cloneSets := calcCloneSets s, loopModeActive := true }
    rw [hw]
    exact ⟨rfl, rfl, rfl, rfl, rfl⟩

theorem mSetupLoopTrack_inv (s : MState) (a : ℤ) (hspv : 0 < s.slidesPerView)
    (hn : 0 < s.slideCount) (hInv : Inv s) : Inv (mSetupLoopTrack s a) := by
  unfold mSetupLoopTrack
  split_ifs
  · exact mTeardownLoopTrack_inv s a hspv hn
  · exact hInv
  · obtain ⟨w, hw⟩ :=
      mRecalc_shape { s with cloneSets := calcCloneSets s, loopModeActive := true }
    rw [hw]
    have hb := normInt_mem s a hspv hn
    exact ⟨hb.1, hb.2⟩

theorem mNonLoopRealign_frame (s : MState) :
    (mNonLoopRealign s).slideCount = s.slideCount ∧
    (mNonLoopRealign s).slidesPerView = s.slidesPerView ∧
    (mNonLoopRealign s).cfgLoop = s.cfgLoop ∧
    (mNonLoopRealign s).cfgPerMove = s.cfgPerMove ∧
    (mNonLoopRealign s).isDestroyed = s.isDestroyed ∧
    (mNonLoopRealign s).loopModeActive = s.loopModeActive := by
  unfold mNonLoopRealign
  split_ifs <;> exact ⟨rfl, rfl, rfl, rfl, rfl, rfl⟩

theorem mNonLoopRealign_inv (s : MState) (hspv : 0 < s.slidesPerView)
    (hn : 0 < s.slideCount) (h : s.loopModeActive = true → Inv s) :
    Inv (mNonLoopRealign s) := by
  unfold mNonLoopRealign
  split_ifs with h1
  · have hb := normInt_mem s s.currentIndex hspv hn
    exact ⟨hb.1, hb.2⟩
  · refine h ?_
    revert h1
    cases s.loopModeActive <;> simp

theorem mSyncIndex_frame (s : MState) :
    (mSyncIndex s).slideCount = s.slideCount ∧
    (mSyncIndex s).slidesPerView = s.slidesPerView ∧
    (mSyncIndex s).cfgLoop = s.cfgLoop ∧
    (mSyncIndex s).cfgPerMove = s.cfgPerMove ∧
    (mSyncIndex s).isDestroyed = s.isDestroyed ∧
    (mSyncIndex s).loopModeActive = s.loopModeActive := by
  obtain ⟨w, w2, hws⟩ := mGetSlideSize_shape s
  unfold mSyncIndex
  rw [hws]
  dsimp only
  split_ifs <;> exact ⟨rfl, rfl, rfl, rfl, rfl, rfl⟩

theorem mSyncIndex_inv (s : MState) (hspv : 0 < s.slidesPerView) (hInv : Inv s) :
    Inv (mSyncIndex s) := by
  have hn := hInv.slideCount_pos
  obtain ⟨w, w2, hws⟩ := mGetSlideSize_shape s
  unfold mSyncIndex
  rw [hws]
  dsimp only
  split_ifs with h1 h2 h3 h4
  · exact hInv
  · -- loop mode, index changed
    rcases eq_or_ne s.slideWidthPx 0 with hw0 | hw0
    · have he : getLoopIndexFromScroll s s.scrollPos = s.currentIndex := by
        unfold getLoopIndexFromScroll
        rw [if_pos hw0]
      refine ⟨?_, ?_⟩ <;> dsimp only <;> rw [he]
      · exact hInv.1
      · exact hInv.2
    · have hb := getLoopIndexFromScroll_mem s s.scrollPos hw0 hn
      exact ⟨hb.1, hb.2⟩
  · exact hInv
  · -- non-loop, index changed
    have hl : s.loopModeActive = false := by
      revert h2
      cases s.loopModeActive <;> simp
    rcases eq_or_ne w 0 with hw0 | hw0
    · have he : getIndexFromScrollPos { s with slideWidthPx := w } s.scrollPos =
          s.currentIndex := by
        unfold getIndexFromScrollPos
        rw [if_pos hw0]
      refine ⟨?_, ?_⟩ <;> dsimp only <;> rw [he]
      · exact hInv.1
      · exact hInv.2
    · have hb := getIndexFromScrollPos_mem_nonloop { s with slideWidthPx := w }
        s.scrollPos hw0 hl
      have h6 : getIndexFromScrollPos { s with slideWidthPx := w } s.scrollPos ≤
          getMaxIndex s := hb.2
      have hlt := getMaxIndex_lt_slideCount s hspv hn
      refine ⟨hb.1, ?_⟩
      dsimp only
      omega
  · exact hInv

theorem mSetupLoopTrack_inv_enabled (s : MState) (a : ℤ)
    (hle : isLoopEnabled s = true) (hspv : 0 < s.slidesPerView) :
    Inv (mSetupLoopTrack s a) := by
  have hn := slideCount_pos_of_loopEnabled s hspv hle
  unfold mSetupLoopTrack
  rw [if_neg (by rw [hle]; decide)]
  obtain ⟨w, hw⟩ :=
    mRecalc_shape { s with cloneSets := calcCloneSets s, loopModeActive := true }
  rw [hw]
  have hb := normInt_mem s a hspv hn
  exact ⟨hb.1, hb.2⟩

theorem mSetupLoopTrack_enabled_currentIndex (s : MState) (a : ℤ)
    (hle : isLoopEnabled s = true) :
    (mSetupLoopTrack s a).currentIndex = normInt s a := by
  unfold mSetupLoopTrack
  rw [if_neg (by rw [hle]; decide)]
  obtain ⟨w, hw⟩ :=
    mRecalc_shape { s with cloneSets := calcCloneSets s, loopModeActive := true }
  rw [hw]
  rfl

theorem mGoTo_inv (s : MState) (i : ℤ) (hspv : 0 < s.slidesPerView)
    (hInv : Inv s) : Inv (mGoTo s i) := by
  have hn := hInv.slideCount_pos
  obtain ⟨hb1, hb2⟩ := normInt_mem s i hspv hn
  obtain ⟨hi1, hi2⟩ := hInv
  obtain ⟨w, w2, hws⟩ := mGetSlideSize_shape s
  unfold mGoTo
  rw [hws]
  dsimp only
  split_ifs <;>
    exact ⟨by (try dsimp only); omega, by (try dsimp only); omega⟩

theorem mNext_inv (s : MState) (hspv : 0 < s.slidesPerView) (hInv : Inv s) :
    Inv (mNext s) := by
  unfold mNext
  split_ifs
  · exact hInv
  · exact mGoTo_inv s _ hspv hInv

theorem mPrev_inv (s : MState) (hspv : 0 < s.slidesPerView) (hInv : Inv s) :
    Inv (mPrev s) := by
  unfold mPrev
  split_ifs
  · exact hInv
  · exact mGoTo_inv s _ hspv hInv

theorem mUpdateLoopPhase_inv (s : MState) (pl : Bool) (ps : ℚ)
    (hspv : 0 < s.slidesPerView) (hInv : Inv s) : Inv (mUpdateLoopPhase s pl ps) := by
  have hn := hInv.slideCount_pos
  unfold mUpdateLoopPhase
  split_ifs
  · exact mSetupLoopTrack_inv s _ hspv hn hInv
  · exact mTeardownLoopTrack_inv s _ hspv hn
  · exact mSetupLoopTrack_inv s _ hspv hn hInv
  · exact hInv

theorem mUpdateLoopPhase_frame (s : MState) (pl : Bool) (ps : ℚ) :
    (mUpdateLoopPhase s pl ps).slideCount = s.slideCount ∧
    (mUpdateLoopPhase s pl ps).slidesPerView = s.slidesPerView ∧
    (mUpdateLoopPhase s pl ps).cfgPerMove = s.cfgPerMove ∧
    (mUpdateLoopPhase s pl ps).isDestroyed = s.isDestroyed := by
  unfold mUpdateLoopPhase
  split_ifs
  · exact ⟨(mSetupLoopTrack_frame s _).1, (mSetupLoopTrack_frame s _).2.1,
      (mSetupLoopTrack_frame s _).2.2.2.1, (mSetupLoopTrack_frame s _).2.2.2.2⟩
  · exact ⟨(mTeardownLoopTrack_frame s _).1, (mTeardownLoopTrack_frame s _).2.1,
      (mTeardownLoopTrack_frame s _).2.2.2.1,
      (mTeardownLoopTrack_frame s _).2.2.2.2.1⟩
  · exact ⟨(mSetupLoopTrack_frame s _).1, (mSetupLoopTrack_frame s _).2.1,
      (mSetupLoopTrack_frame s _).2.2.2.1, (mSetupLoopTrack_frame s _).2.2.2.2⟩
  · exact ⟨rfl, rfl, rfl, rfl⟩

theorem mUpdate_inv (s : MState) (css : CssLayout) (nc : Option UpdateCfg)
    (hcss : 0 < css.slidesPerView) (hInv : Inv s) : Inv (mUpdate s css nc) := by
  unfold mUpdate
  obtain ⟨w, hrw⟩ := mRecalc_shape (mUpdateMerge s css nc)
  rw [hrw]
  have hrspv : 0 < ({ mUpdateMerge s css nc with slideWidthPx := w } : MState).slidesPerView :=
    hcss
  have hrInv : Inv { mUpdateMerge s css nc with slideWidthPx := w } :=
    ⟨hInv.1, hInv.2⟩
  have hL := mUpdateLoopPhase_inv { mUpdateMerge s css nc with slideWidthPx := w }
    s.cfgLoop s.slidesPerView hrspv hrInv
  obtain ⟨hLc, hLs, -, -⟩ := mUpdateLoopPhase_frame
    { mUpdateMerge s css nc with slideWidthPx := w } s.cfgLoop s.slidesPerView
  have hLspv : 0 < (mUpdateLoopPhase { mUpdateMerge s css nc with slideWidthPx := w }
      s.cfgLoop s.slidesPerView).slidesPerView := by
    rw [hLs]
    exact hrspv
  have hLn : 0 < (mUpdateLoopPhase { mUpdateMerge s css nc with slideWidthPx := w }
      s.cfgLoop s.slidesPerView).slideCount := by
    rw [hLc]
    exact hrInv.slideCount_pos
  have hR := mNonLoopRealign_inv _ hLspv hLn (fun _ => hL)
  obtain ⟨-, hRs, -, -, -, -⟩ := mNonLoopRealign_frame
    (mUpdateLoopPhase { mUpdateMerge s css nc with slideWidthPx := w }
      s.cfgLoop s.slidesPerView)
  exact mSyncIndex_inv _ (by rw [hRs]; exact hLspv) hR

theorem mRefreshTail_inv (s3 : MState) (hspv : 0 < s3.slidesPerView)
    (hn : 0 < s3.slideCount) (hloop : s3.loopModeActive = false) :
    Inv (mRefreshTail s3) := by
  unfold mRefreshTail
  split_ifs with hle
  · have hs4 := mSetupLoopTrack_inv_enabled s3 s3.currentIndex hle hspv
    obtain ⟨hc4, hv4, -, -, -⟩ := mSetupLoopTrack_frame s3 s3.currentIndex
    have hR := mNonLoopRealign_inv _ (by rw [hv4]; exact hspv)
      (by rw [hc4]; exact hn) (fun _ => hs4)
    obtain ⟨-, hRs, -, -, -, -⟩ :=
      mNonLoopRealign_frame (mSetupLoopTrack s3 s3.currentIndex)
    exact mSyncIndex_inv _ (by rw [hRs, hv4]; exact hspv) hR
  · have hR := mNonLoopRealign_inv s3 hspv hn
      (fun habs => absurd habs (by rw [hloop]; decide))
    obtain ⟨-, hRs, -, -, -, -⟩ := mNonLoopRealign_frame s3
    exact mSyncIndex_inv _ (by rw [hRs]; exact hspv) hR

theorem mRefreshScan_inv (t : MState) (newCount : ℕ) (css : CssLayout)
    (hcss : 0 < css.slidesPerView) (hnew : 1 ≤ newCount)
    (hloop : t.loopModeActive = false) : Inv (mRefreshScan t newCount css) := by
  unfold mRefreshScan
  rw [if_neg (by omega : ¬newCount = 0)]
  obtain ⟨w, hw⟩ := mRecalc_shape
    { t with slideCount := newCount, slidesPerView := css.slidesPerView,
             gap := css.gap }
  rw [hw]
  exact mRefreshTail_inv _ hcss (by dsimp only; omega) hloop

theorem mRefresh_inv (s : MState) (newCount : ℕ) (css : CssLayout)
    (hcss : 0 < css.slidesPerView) (hspv : 0 < s.slidesPerView)
    (hnew : 1 ≤ newCount) (hInv : Inv s) : Inv (mRefresh s newCount css) := by
  have hn := hInv.slideCount_pos
  unfold mRefresh
  split_ifs with h1 h2
  · exact hInv
  · exact mRefreshScan_inv _ _ _ hcss hnew
      ((mTeardownLoopTrack_frame s s.currentIndex).2.2.2.2.2.1)
  · exact mRefreshScan_inv _ _ _ hcss hnew (Bool.eq_false_iff.mpr h2)

theorem mAdd_inv (s : MState) (numAdded : ℕ) (css : CssLayout)
    (hcss : 0 < css.slidesPerView) (hspv : 0 < s.slidesPerView)
    (hInv : Inv s) : Inv (mAdd s numAdded css) := by
  have hn := hInv.slideCount_pos
  unfold mAdd
  split_ifs with h1 h2
  · exact hInv
  · refine mRefresh_inv _ _ _ hcss ?_ ?_ ?_
    · rw [(mTeardownLoopTrack_frame s _).2.1]
      exact hspv
    · rw [(mTeardownLoopTrack_frame s _).1]
      omega
    · exact mTeardownLoopTrack_inv s _ hspv hn
  · exact mRefresh_inv _ _ _ hcss hspv (by omega) hInv

theorem mRemove_inv (s : MState) (numRemoved : ℕ) (css : CssLayout)
    (hcss : 0 < css.slidesPerView) (hspv : 0 < s.slidesPerView)
    (hrem : numRemoved < s.slideCount) (hInv : Inv s) :
    Inv (mRemove s numRemoved css) := by
  have hn := hInv.slideCount_pos
  unfold mRemove
  split_ifs with h1 h2
  · exact hInv
  · refine mRefresh_inv _ _ _ hcss ?_ ?_ ?_
    · rw [(mTeardownLoopTrack_frame s _).2.1]
      exact hspv
    · rw [(mTeardownLoopTrack_frame s _).1]
      omega
    · exact mTeardownLoopTrack_inv s _ hspv hn
  · exact mRefresh_inv _ _ _ hcss hspv (by omega) hInv

theorem mDestroy_inv (s : MState) (hspv : 0 < s.slidesPerView) (hInv : Inv s) :
    Inv (mDestroy s) := by
  have hn := hInv.slideCount_pos
  unfold mDestroy
  dsimp only
  split_ifs with h1 h2
  · exact hInv
  · have ht := mTeardownLoopTrack_inv ({ s with isDestroyed := true } : MState)
      s.currentIndex hspv hn
    exact ⟨by dsimp only; exact ht.1, by dsimp only; exact ht.2⟩
  · exact ⟨hInv.1, hInv.2⟩

theorem mScrollSettle_inv (s : MState) (hspv : 0 < s.slidesPerView)
    (hInv : Inv s) : Inv (mScrollSettle s) := by
  unfold mScrollSettle
  exact mSyncIndex_inv _ hspv ⟨hInv.1, hInv.2⟩

theorem mInit_starts_at_zero (n : ℕ) (cfgLoop : Bool) (pm : Option ℤ)
    (css : CssLayout) (vp ts rect : ℚ) (hn : 1 ≤ n)
    (hcss : 0 < css.slidesPerView) :
    Inv (mInit n cfgLoop pm css vp ts rect) ∧
    (mInit n cfgLoop pm css vp ts rect).currentIndex = 0 := by
  unfold mInit
  dsimp only
  obtain ⟨w, hw⟩ := mRecalc_shape
    { currentIndex := 0, isDestroyed := false, loopModeActive := false,
      isDragging := false, isProgrammaticScroll := false, slideWidthPx := 0,
      slideCount := n, cloneSets := 3, cfgLoop := cfgLoop, cfgPerMove := pm,
      slidesPerView := css.slidesPerView, gap := css.gap, viewportSize := vp,
      trackScrollSize := ts, scrollPos := 0, firstSlideRect := rect }
  rw [hw]
  split_ifs with h1
  · have hnz : (0 : ℤ) < (n : ℤ) := by omega
    have hcur := mSetupLoopTrack_enabled_currentIndex _ 0 h1
    refine ⟨mSetupLoopTrack_inv_enabled _ 0 h1 hcss, ?_⟩
    rw [hcur]
    unfold normInt
    rw [if_neg (by rw [h1]; decide)]
    dsimp only
    rw [jsWrap_eq_emod 0 hnz]
    exact Int.zero_emod _
  · exact ⟨⟨le_refl 0, by dsimp only; omega⟩, rfl⟩

/-- C9 amended: `currentIndex` starts at `0` and, for positive
`slidesPerView` (CSS layout) and integer index arguments, every public
operation keeps `currentIndex` in `[0, slideCount)` — provided the
operation leaves at least one slide (`refresh` finding zero slides and
`remove` of the whole set record `slideCount = 0` while leaving
`currentIndex` untouched, vacating the range). -/
theorem currentIndexRangeInvariant (s : MState) (css : CssLayout)
    (nc : Option UpdateCfg) (i : ℤ) (numAdded numRemoved newCount n0 : ℕ)
    (cfgLoop : Bool) (pm : Option ℤ) (vp ts rect : ℚ)
    (hspv : 0 < s.slidesPerView) (hcss : 0 < css.slidesPerView)
    (hInv : Inv s) :
    Inv (mNext s) ∧ Inv (mPrev s) ∧ Inv (mGoTo s i) ∧ Inv (mUpdate s css nc) ∧
    (1 ≤ newCount → Inv (mRefresh s newCount css)) ∧
    Inv (mAdd s numAdded css) ∧
    (numRemoved < s.slideCount → Inv (mRemove s numRemoved css)) ∧
    Inv (mDestroy s) ∧ Inv (mScrollSettle s) ∧ Inv (mSyncIndex s) ∧
    (1 ≤ n0 → Inv (mInit n0 cfgLoop pm css vp ts rect) ∧
      (mInit n0 cfgLoop pm css vp ts rect).currentIndex = 0) :=
  ⟨mNext_inv s hspv hInv, mPrev_inv s hspv hInv, mGoTo_inv s i hspv hInv,
   mUpdate_inv s css nc hcss hInv,
   fun h => mRefresh_inv s newCount css hcss hspv h hInv,
   mAdd_inv s numAdded css hcss hspv hInv,
   fun h => mRemove_inv s numRemoved css hcss hspv h hInv,
   mDestroy_inv s hspv hInv, mScrollSettle_inv s hspv hInv,
   mSyncIndex_inv s hspv hInv,
   fun h => mInit_starts_at_zero n0 cfgLoop pm css vp ts rect h hcss⟩

/-- C9 witness: the invariant instantiated on a concrete loop-enabled
state, for `next`, an `update` and a `refresh` to two slides. -/
theorem currentIndexRangeInvariant_witness :
    Inv (mNext W4) ∧ Inv (mUpdate W4 ⟨1, 0⟩ none) ∧
    Inv (mRefresh W4 2 ⟨1, 0⟩) := by
  have h := currentIndexRangeInvariant W4 ⟨1, 0⟩ none 0 0 0 2 1 false none 0 0 0
    (by norm_num [W4]) (by norm_num) ⟨by norm_num [W4], by norm_num [W4]⟩
  exact ⟨h.1, h.2.2.2.1, h.2.2.2.2.1 (by norm_num)⟩

/-- A freshly constructed one-slide slider (no loop, `slidesPerView = 1`,
slide size 10). -/
def S9 : MState := mInit 1 false none ⟨1, 0⟩ 10 10 10

theorem S9_eq : S9 =
    { currentIndex := 0, isDestroyed := false, loopModeActive := false,
      isDragging := false, isProgrammaticScroll := false, slideWidthPx := 10,
      slideCount := 1, cloneSets := 3, cfgLoop := false, cfgPerMove := none,
      slidesPerView := 1, gap := 0, viewportSize := 10, trackScrollSize := 10,
      scrollPos := 0, firstSlideRect := 10 } := by
  simp only [S9, mInit, mRecalc, mGetSlideSize]
  norm_num [isLoopEnabled, getMaxIndex, isFractionalView]

/-- C9 counterexample: `refresh()` on a reachable one-slide slider whose
track was externally emptied sets `slideCount = 0` and leaves
`currentIndex = 0`, so `currentIndex ∈ [0, slideCount)` fails (`[0, 0)`
is empty). -/
theorem currentIndexRangeInvariant_counterexample :
    (mRefresh S9 0 ⟨1, 0⟩).slideCount = 0 ∧
    (mRefresh S9 0 ⟨1, 0⟩).currentIndex = 0 ∧
    ¬Inv (mRefresh S9 0 ⟨1, 0⟩) := by
  have hr : mRefresh S9 0 ⟨1, 0⟩ =
      { currentIndex := 0, isDestroyed := false, loopModeActive := false,
        isDragging := false, isProgrammaticScroll := false, slideWidthPx := 10,
        slideCount := 0, cloneSets := 3, cfgLoop := false, cfgPerMove := none,
        slidesPerView := 1, gap := 0, viewportSize := 10, trackScrollSize := 10,
        scrollPos := 0, firstSlideRect := 10 } := by
    rw [S9_eq]
    simp [mRefresh, mRefreshScan]
  rw [hr]
  refine ⟨rfl, rfl, ?_⟩
  intro hcon
  obtain ⟨-, h2⟩ := hcon
  simp at h2

/-- The slider of `S9` after `destroy()`. -/
def D2 : MState := mDestroy S9

theorem D2_eq : D2 =
    { currentIndex := 0, isDestroyed := true, loopModeActive := false,
      isDragging := false, isProgrammaticScroll := false, slideWidthPx := 10,
      slideCount := 1, cloneSets := 3, cfgLoop := false, cfgPerMove := none,
      slidesPerView := 1, gap := 0, viewportSize := 10, trackScrollSize := 10,
      scrollPos := 0, firstSlideRect := 10 } := by
  rw [D2, S9_eq]
  simp [mDestroy]

theorem mUpdate_cfgPerMove (s : MState) (css : CssLayout) (p : ℤ) :
    (mUpdate s css (some { loop := none, perMove := some p })).cfgPerMove =
      some p := by
  unfold mUpdate
  obtain ⟨w, hw⟩ :=
    mRecalc_shape (mUpdateMerge s css (some { loop := none, perMove := some p }))
  rw [hw]
  rw [(mSyncIndex_frame _).2.2.2.1, (mNonLoopRealign_frame _).2.2.2.1,
    (mUpdateLoopPhase_frame _ _ _).2.2.1]
  rfl

/-- C2: on a destroyed instance `next`, `prev` and `goTo` are exact
no-ops, but `update` is not — the source omits the `isDestroyed` guard
there, so `update({ perMove: 5 })` still merges the config (and goes on
to re-measure, re-normalize and issue a scroll) after `destroy()`. -/
theorem destroyed_update_not_noop :
    mNext D2 = D2 ∧ mPrev D2 = D2 ∧ mGoTo D2 5 = D2 ∧
    D2.isDestroyed = true ∧ D2.cfgPerMove = none ∧
    (mUpdate D2 ⟨1, 0⟩ (some { loop := none, perMove := some 5 })).cfgPerMove =
      some 5 := by
  have hd : D2.isDestroyed = true := by rw [D2_eq]
  refine ⟨?_, ?_, ?_, hd, ?_, mUpdate_cfgPerMove D2 ⟨1, 0⟩ 5⟩
  · unfold mNext
    rw [if_pos hd]
  · unfold mPrev
    rw [if_pos hd]
  · unfold mGoTo
    rw [if_pos hd]
  · rw [D2_eq]

end AeroSlider
